import Mathlib

/-!
Shallow embedding of the `post-image-processor` lambda handlers
(`index_with_bedrock.mjs` and `index_old.mjs`).

Both handlers iterate the records of an inbound S3 notification event,
resolve a post id from the object key, look the post up in MongoDB,
download the image, derive a textual description (Rekognition labels in
the bedrock variant, a vision chat model in the old variant), combine it
with the post caption, compute an embedding, update the Mongo document
and upsert a point into the Qdrant collection `posts`.

Modelling choices:
* remote services (S3, Rekognition, the vision model, the embedding
  backends, the Mongo update acknowledgement and the Qdrant upsert
  acknowledgement) are oracles in an `Env` record, each returning
  `Except String` where the `String` is the thrown error message;
* `uuidv4()` is modelled as a fresh-identity supply: the pipeline state
  carries a counter `nextId` and each generated identity is the current
  counter value (the only property the code relies on is freshness);
* embedding vectors are opaque data, modelled as `List Int` (the code
  never computes with the numbers, it only passes them through);
* `new Date()` is modelled by a `now` field of the environment;
* every remote interaction is recorded in a `Call` trace so that
  "no further call is made" claims are statements about the trace.
-/

namespace Spotter

/-- Raw image bytes, opaque to the pipeline. -/
abbrev ImageBytes := List Nat

/-- A MongoDB `posts` document.  `extra` stands for any further fields of
the document that the pipeline never touches (needed to state frame
conditions). -/
structure Post where
  oid : String
  userId : String
  caption : Option String
  status : String
  imageDescription : Option String
  embeddingId : Option Nat
  extra : List (String × String)
deriving Repr, DecidableEq

/-- Payload of a Qdrant point.  `createdAt` is `none` when the variant
does not write that field (the bedrock variant) and `some t` when it
writes `new Date()` (the old variant). -/
structure Payload where
  postId : String
  userId : String
  caption : String
  imageDescription : String
  createdAt : Option Nat
deriving Repr, DecidableEq

/-- A point upserted into the Qdrant collection. -/
structure QPoint where
  pid : Nat
  vector : List Int
  payload : Payload
deriving Repr, DecidableEq

/-- One record of the inbound S3 event: bucket name and (still
URL-encoded) object key. -/
structure S3Record where
  bucket : String
  key : String
deriving Repr, DecidableEq

/-- The remote interactions the handler performs, in order. -/
inductive Call where
  | findOne (oid : String)
  | getObject (bucket key : String)
  | detectLabels (img : ImageBytes)
  | visionDescribe (img : ImageBytes)
  | invokeEmbed (text : String)
  | updateOne (oid : String)
  | upsert (collection : String) (pt : QPoint)
deriving Repr, DecidableEq

/-- Oracles for the remote services.  An `Except.error` models the
backend call throwing, with the thrown error message. -/
structure Env where
  s3Object : String → String → Except String ImageBytes
  detectLabels : ImageBytes → Except String (List String)
  visionDescribe : ImageBytes → Except String String
  titanEmbed : String → Except String (List Int)
  openaiEmbed : String → Except String (List Int)
  mongoUpdate : String → Except String Unit
  qdrantUpsert : QPoint → Except String Unit
  now : Nat

/-- Observable state threaded through the pipeline: the Mongo `posts`
collection, the Qdrant points, and the fresh-identity counter. -/
structure PState where
  store : List Post
  points : List QPoint
  nextId : Nat
deriving Repr, DecidableEq

instance {ε α : Type} [DecidableEq ε] [DecidableEq α] : DecidableEq (Except ε α) := fun
  | .error e, .error f =>
      if h : e = f then .isTrue (by rw [h]) else .isFalse (fun hh => h (by cases hh; rfl))
  | .error _, .ok _ => .isFalse (fun hh => Except.noConfusion hh)
  | .ok _, .error _ => .isFalse (fun hh => Except.noConfusion hh)
  | .ok a, .ok b =>
      if h : a = b then .isTrue (by rw [h]) else .isFalse (fun hh => h (by cases hh; rfl))

/-! ### JS string primitives used by the handlers -/

/-- `key.replace(/\+/g, " ")`. -/
def plusToSpace (s : String) : String :=
  String.mk (s.data.map (fun c => if c = '+' then ' ' else c))

/-- Hexadecimal digit test (both cases), as accepted by
`decodeURIComponent` escapes and by BSON ObjectId strings. -/
def isHexChar (c : Char) : Bool :=
  c.isDigit || ('a' ≤ c && c ≤ 'f') || ('A' ≤ c && c ≤ 'F')

/-- Numeric value of a hexadecimal digit. -/
def hexVal (c : Char) : Nat :=
  if c.isDigit then c.toNat - 48
  else if 'a' ≤ c && c ≤ 'f' then c.toNat - 87
  else if 'A' ≤ c && c ≤ 'F' then c.toNat - 55
  else 0

/-- Percent-decoding over a character list; `none` models
`decodeURIComponent` throwing `URIError` on a malformed escape. -/
def percentDecodeList : List Char → Option (List Char)
  | [] => some []
  | '%' :: h1 :: h2 :: rest =>
      if isHexChar h1 && isHexChar h2 then
        (percentDecodeList rest).map (fun r => Char.ofNat (16 * hexVal h1 + hexVal h2) :: r)
      else none
  | '%' :: _ => none
  | c :: rest => (percentDecodeList rest).map (fun r => c :: r)

/-- `decodeURIComponent`, modelled byte-wise. -/
def decodeURIComponentJs (s : String) : Option String :=
  (percentDecodeList s.data).map String.mk

/-- `decodeURIComponent(record.s3.object.key.replace(/\+/g, " "))`. -/
def decodeKey (key : String) : Option String :=
  decodeURIComponentJs (plusToSpace key)

/-- `String.prototype.split` with a single-character separator, JS
semantics (`"".split(sep)` is `[""]`, trailing separators yield a final
empty segment). -/
def jsSplitChars (sep : Char) : List Char → List (List Char)
  | [] => [[]]
  | c :: rest =>
      let r := jsSplitChars sep rest
      if c = sep then [] :: r
      else
        match r with
        | [] => [[c]]
        | g :: gs => (c :: g) :: gs

/-- JS `s.split(sep)` for a one-character separator string. -/
def jsSplit (sep : Char) (s : String) : List String :=
  (jsSplitChars sep s.data).map String.mk

/-- JS whitespace test (ASCII fragment, which is all the handlers use). -/
def isSpaceChar (c : Char) : Bool :=
  c = ' ' || c = '\t' || c = '\n' || c = '\r'

/-- Drop leading whitespace characters. -/
def dropLeadingSpaces : List Char → List Char
  | [] => []
  | c :: rest => if isSpaceChar c then dropLeadingSpaces rest else c :: rest

/-- JS `String.prototype.trim`. -/
def jsTrim (s : String) : String :=
  String.mk (dropLeadingSpaces ((dropLeadingSpaces s.data.reverse).reverse))

/-- JS `String.prototype.toLowerCase` (ASCII fragment). -/
def jsToLower (s : String) : String :=
  String.mk (s.data.map Char.toLower)

/-- JS `Array.prototype.join(", ")`. -/
def joinCommaSpace : List String → String
  | [] => ""
  | [s] => s
  | s :: rest => s ++ ", " ++ joinCommaSpace rest

/-! ### Path resolution and the Mongo gateway -/

/-- `key.split("/")[2].split(".")[0]`; `none` models the `TypeError`
thrown when the decoded key has fewer than three `/`-separated segments
(element 2 is `undefined`). -/
def extractPostId (decodedKey : String) : Option String :=
  ((jsSplit '/' decodedKey).get? 2).map fun seg =>
    match jsSplit '.' seg with
    | [] => ""
    | h :: _ => h

/-- Post id resolved from a raw object key, when resolution succeeds. -/
def resolvedPostId (key : String) : Option String :=
  (decodeKey key).bind extractPostId

/-- `ObjectId.isValid` for string input: a 24-character hexadecimal
string (the `new ObjectId(postId)` constructor throws `BSONError` on
anything else). -/
def isValidObjectId (s : String) : Bool :=
  s.length = 24 && s.data.all isHexChar

/-- `posts.findOne({_id})`: first document whose id matches. -/
def findPost (store : List Post) (oid : String) : Option Post :=
  store.find? (fun p => p.oid = oid)

/-- `posts.updateOne({_id}, {$set: ...})`: apply `f` to the first
document whose id matches, leave every other document unchanged. -/
def updateFirst : List Post → String → (Post → Post) → List Post
  | [], _, _ => []
  | p :: rest, oid, f =>
      if p.oid = oid then f p :: rest else p :: updateFirst rest oid f

/-! ### The per-record pipeline, bedrock variant -/

/-- `const { userId, caption = "" } = post` followed by the JS
truthiness test `caption ? ... : ...`: combine the caption with the
image description.  An absent or empty caption yields the description
alone. -/
def combineText (caption : Option String) (imageDescription : String) : String :=
  let c := caption.getD ""
  if c = "" then imageDescription else jsTrim (c ++ " " ++ imageDescription)

/-- Description built from Rekognition labels in the bedrock variant:
`` `A imagem contém: ${labels.toLowerCase()}.` `` where `labels` is the
comma-joined label names. -/
def labelDescription (labels : List String) : String :=
  "A imagem contém: " ++ jsToLower (joinCommaSpace labels) ++ "."

/-- Error message of the `TypeError` thrown by
`key.split("/")[2].split(".")[0]` when segment 2 is `undefined`. -/
def segmentErrorMsg : String := "Cannot read properties of undefined (reading split)"

/-- Error message of the `URIError` thrown by `decodeURIComponent`. -/
def uriErrorMsg : String := "URI malformed"

/-- Error message of the `BSONError` thrown by `new ObjectId(postId)` on
a non-hex / wrong-length string. -/
def bsonErrorMsg : String := "input must be a 24 character hex string"

/-- The point the bedrock variant upserts. -/
def mkPointBedrock (eid : Nat) (vec : List Int) (postId : String) (post : Post)
    (desc : String) : QPoint :=
  { pid := eid, vector := vec,
    payload := { postId := postId, userId := post.userId,
                 caption := post.caption.getD "", imageDescription := desc,
                 createdAt := none } }

/-- One iteration of the bedrock handler loop body: returns the remote
calls made for this record and either the updated state or the thrown
error. -/
def processRecordBedrock (env : Env) (st : PState) (r : S3Record) :
    List Call × Except String PState :=
  match decodeKey r.key with
  | none => ([], .error uriErrorMsg)
  | some k =>
    match extractPostId k with
    | none => ([], .error segmentErrorMsg)
    | some postId =>
      if isValidObjectId postId then
        match findPost st.store postId with
        | none => ([Call.findOne postId], .ok st)
        | some post =>
          match env.s3Object r.bucket k with
          | .error e => ([Call.findOne postId, Call.getObject r.bucket k], .error e)
          | .ok img =>
            match env.detectLabels img with
            | .error e =>
                ([Call.findOne postId, Call.getObject r.bucket k,
                  Call.detectLabels img], .error e)
            | .ok labels =>
              let imageDescription := labelDescription labels
              let combinedText := combineText post.caption imageDescription
              match env.titanEmbed combinedText with
              | .error e =>
                  ([Call.findOne postId, Call.getObject r.bucket k,
                    Call.detectLabels img, Call.invokeEmbed combinedText], .error e)
              | .ok embedding =>
                let embeddingId := st.nextId
                match env.mongoUpdate postId with
                | .error e =>
                    ([Call.findOne postId, Call.getObject r.bucket k,
                      Call.detectLabels img, Call.invokeEmbed combinedText,
                      Call.updateOne postId], .error e)
                | .ok _ =>
                  let store' := updateFirst st.store postId fun p =>
                    { p with status := "processed", embeddingId := some embeddingId }
                  let pt := mkPointBedrock embeddingId embedding postId post imageDescription
                  match env.qdrantUpsert pt with
                  | .error e =>
                      ([Call.findOne postId, Call.getObject r.bucket k,
                        Call.detectLabels img, Call.invokeEmbed combinedText,
                        Call.updateOne postId, Call.upsert "posts" pt], .error e)
                  | .ok _ =>
                      ([Call.findOne postId, Call.getObject r.bucket k,
                        Call.detectLabels img, Call.invokeEmbed combinedText,
                        Call.updateOne postId, Call.upsert "posts" pt],
                       .ok { store := store', points := st.points ++ [pt],
                             nextId := st.nextId + 1 })
      else ([], .error bsonErrorMsg)

/-! ### The per-record pipeline, old (OpenAI) variant -/

/-- The point the old variant upserts (payload additionally carries
`createdAt: new Date()`). -/
def mkPointOld (eid : Nat) (vec : List Int) (postId : String) (post : Post)
    (desc : String) (now : Nat) : QPoint :=
  { pid := eid, vector := vec,
    payload := { postId := postId, userId := post.userId,
                 caption := post.caption.getD "", imageDescription := desc,
                 createdAt := some now } }

/-- One iteration of the old handler loop body. -/
def processRecordOld (env : Env) (st : PState) (r : S3Record) :
    List Call × Except String PState :=
  match decodeKey r.key with
  | none => ([], .error uriErrorMsg)
  | some k =>
    match extractPostId k with
    | none => ([], .error segmentErrorMsg)
    | some postId =>
      if isValidObjectId postId then
        match findPost st.store postId with
        | none => ([Call.findOne postId], .ok st)
        | some post =>
          match env.s3Object r.bucket k with
          | .error e => ([Call.findOne postId, Call.getObject r.bucket k], .error e)
          | .ok img =>
            match env.visionDescribe img with
            | .error e =>
                ([Call.findOne postId, Call.getObject r.bucket k,
                  Call.visionDescribe img], .error e)
            | .ok raw =>
              let imageDescription := jsTrim raw
              let combinedText := combineText post.caption imageDescription
              match env.openaiEmbed combinedText with
              | .error e =>
                  ([Call.findOne postId, Call.getObject r.bucket k,
                    Call.visionDescribe img, Call.invokeEmbed combinedText], .error e)
              | .ok embedding =>
                match env.mongoUpdate postId with
                | .error e =>
                    ([Call.findOne postId, Call.getObject r.bucket k,
                      Call.visionDescribe img, Call.invokeEmbed combinedText,
                      Call.updateOne postId], .error e)
                | .ok _ =>
                  let store' := updateFirst st.store postId fun p =>
                    { p with status := "processed",
                             imageDescription := some imageDescription }
                  let pt := mkPointOld st.nextId embedding postId post imageDescription env.now
                  match env.qdrantUpsert pt with
                  | .error e =>
                      ([Call.findOne postId, Call.getObject r.bucket k,
                        Call.visionDescribe img, Call.invokeEmbed combinedText,
                        Call.updateOne postId, Call.upsert "posts" pt], .error e)
                  | .ok _ =>
                      ([Call.findOne postId, Call.getObject r.bucket k,
                        Call.visionDescribe img, Call.invokeEmbed combinedText,
                        Call.updateOne postId, Call.upsert "posts" pt],
                       .ok { store := store', points := st.points ++ [pt],
                             nextId := st.nextId + 1 })
      else ([], .error bsonErrorMsg)

/-! ### The batch runner and handler responses -/

/-- Sequential fold of the loop body over the event records, stopping at
the first thrown error (`for ... of` inside `try`). -/
def runRecords (step : PState → S3Record → List Call × Except String PState) :
    PState → List S3Record → List Call × Except String PState
  | st, [] => ([], .ok st)
  | st, r :: rs =>
      match step st r with
      | (tr, .error e) => (tr, .error e)
      | (tr, .ok st') =>
          match runRecords step st' rs with
          | (tr2, res) => (tr ++ tr2, res)

/-- Handler response body: `JSON.stringify({success: true})` or
`JSON.stringify({error: error.message})`. -/
inductive HBody where
  | success
  | failure (msg : String)
deriving Repr, DecidableEq

/-- The handler response `{statusCode, body}`. -/
structure HandlerResponse where
  statusCode : Nat
  body : HBody
deriving Repr, DecidableEq

/-- `try { ...; return 200 } catch (error) { return 500 }`. -/
def mkResponse : Except String PState → HandlerResponse
  | .ok _ => { statusCode := 200, body := .success }
  | .error e => { statusCode := 500, body := .failure e }

/-- The bedrock lambda handler: trace of remote calls and response. -/
def handlerBedrock (env : Env) (st : PState) (records : List S3Record) :
    List Call × HandlerResponse :=
  match runRecords (processRecordBedrock env) st records with
  | (tr, res) => (tr, mkResponse res)

/-- The old lambda handler: trace of remote calls and response. -/
def handlerOld (env : Env) (st : PState) (records : List S3Record) :
    List Call × HandlerResponse :=
  match runRecords (processRecordOld env) st records with
  | (tr, res) => (tr, mkResponse res)

/-- The `(collection, point)` argument of an upsert call, for trace
observations. -/
def upsertCallArgs : Call → Option (String × QPoint)
  | .upsert c pt => some (c, pt)
  | _ => none

/-- Payloads of all vector-index upserts appearing in a trace. -/
def upsertedPayloads (tr : List Call) : List Payload :=
  tr.filterMap fun c => (upsertCallArgs c).map fun a => a.2.payload

/-! ### A concrete scenario, used to instantiate the theorems -/

/-- A syntactically valid ObjectId string. -/
def wId : String := "aaaaaaaaaaaaaaaaaaaaaaaa"

/-- Object key following the `posts/<userId>/<postId>.jpg` convention. -/
def wKey : String := "posts/u1/aaaaaaaaaaaaaaaaaaaaaaaa.jpg"

/-- The stored post. -/
def wPost : Post :=
  { oid := wId, userId := "u1", caption := some "sunset",
    status := "pending", imageDescription := none, embeddingId := none,
    extra := [("likes", "3")] }

/-- Initial state: one pending post, empty vector index. -/
def wState : PState := { store := [wPost], points := [], nextId := 0 }

/-- Initial state with an empty record store. -/
def wStateEmpty : PState := { store := [], points := [], nextId := 0 }

/-- Oracles that always succeed, with fixed answers. -/
def wEnv : Env :=
  { s3Object := fun _ _ => .ok [1, 2, 3],
    detectLabels := fun _ => .ok ["Sky", "Cloud"],
    visionDescribe := fun _ => .ok " a beach at dusk ",
    titanEmbed := fun _ => .ok [1, 2, 3, 4],
    openaiEmbed := fun _ => .ok [5, 6],
    mongoUpdate := fun _ => .ok (),
    qdrantUpsert := fun _ => .ok (),
    now := 7 }

/-- The inbound event record. -/
def wRec : S3Record := { bucket := "b", key := wKey }

/-- A record whose key has fewer than three `/`-separated segments. -/
def wRecShort : S3Record := { bucket := "b", key := "image.jpg" }

/-- A record whose third path segment is not a valid ObjectId string. -/
def wRecBad : S3Record := { bucket := "b", key := "posts/u1/p1.jpg" }

/-- Description the bedrock variant derives from the labels. -/
def wDescB : String := "A imagem contém: sky, cloud."

/-- Combined text of the bedrock run. -/
def wCombinedB : String := "sunset A imagem contém: sky, cloud."

/-- Point upserted by the first bedrock run. -/
def wPtB : QPoint := mkPointBedrock 0 [1, 2, 3, 4] wId wPost wDescB

/-- The post after the bedrock persist step. -/
def wPostB : Post := { wPost with status := "processed", embeddingId := some 0 }

/-- State after the first bedrock run. -/
def wStateB : PState := { store := [wPostB], points := [wPtB], nextId := 1 }

/-- Trace of the first bedrock run. -/
def wTraceB : List Call :=
  [Call.findOne wId, Call.getObject "b" wKey, Call.detectLabels [1, 2, 3],
   Call.invokeEmbed wCombinedB, Call.updateOne wId, Call.upsert "posts" wPtB]

/-- Point upserted by a second bedrock run on the same event. -/
def wPtB2 : QPoint := mkPointBedrock 1 [1, 2, 3, 4] wId wPostB wDescB

/-- State after the second bedrock run. -/
def wStateB2 : PState :=
  { store := [{ wPostB with embeddingId := some 1 }],
    points := [wPtB, wPtB2], nextId := 2 }

/-- Trace of the second bedrock run. -/
def wTraceB2 : List Call :=
  [Call.findOne wId, Call.getObject "b" wKey, Call.detectLabels [1, 2, 3],
   Call.invokeEmbed wCombinedB, Call.updateOne wId, Call.upsert "posts" wPtB2]

/-- Trimmed description the old variant obtains from the vision model. -/
def wDescO : String := "a beach at dusk"

/-- Combined text of the old-variant run. -/
def wCombinedO : String := "sunset a beach at dusk"

/-- Point upserted by the first old-variant run. -/
def wPtO : QPoint := mkPointOld 0 [5, 6] wId wPost wDescO 7

/-- The post after the old-variant persist step. -/
def wPostO : Post := { wPost with status := "processed", imageDescription := some wDescO }

/-- State after the first old-variant run. -/
def wStateO : PState := { store := [wPostO], points := [wPtO], nextId := 1 }

/-- Trace of the first old-variant run. -/
def wTraceO : List Call :=
  [Call.findOne wId, Call.getObject "b" wKey, Call.visionDescribe [1, 2, 3],
   Call.invokeEmbed wCombinedO, Call.updateOne wId, Call.upsert "posts" wPtO]

/-- Point upserted by a second old-variant run on the same event. -/
def wPtO2 : QPoint := mkPointOld 1 [5, 6] wId wPostO wDescO 7

/-- State after the second old-variant run. -/
def wStateO2 : PState :=
  { store := [wPostO], points := [wPtO, wPtO2], nextId := 2 }

/-- Trace of the second old-variant run. -/
def wTraceO2 : List Call :=
  [Call.findOne wId, Call.getObject "b" wKey, Call.visionDescribe [1, 2, 3],
   Call.invokeEmbed wCombinedO, Call.updateOne wId, Call.upsert "posts" wPtO2]

/-! ### Helper lemmas -/

theorem runRecords_cons_error
    (step : PState → S3Record → List Call × Except String PState)
    (st : PState) (r : S3Record) (rs : List S3Record) (tr : List Call) (e : String)
    (h : step st r = (tr, .error e)) :
    runRecords step st (r :: rs) = (tr, .error e) := by
  unfold runRecords
  rw [h]

theorem runRecords_cons_ok
    (step : PState → S3Record → List Call × Except String PState)
    (st st' : PState) (r : S3Record) (rs : List S3Record) (tr : List Call)
    (h : step st r = (tr, .ok st')) :
    runRecords step st (r :: rs) =
      (tr ++ (runRecords step st' rs).1, (runRecords step st' rs).2) := by
  cases hr : runRecords step st' rs with
  | mk tr2 res2 =>
      simp only [runRecords]
      rw [h]
      show (tr ++ (runRecords step st' rs).1, (runRecords step st' rs).2) = (tr ++ tr2, res2)
      rw [hr]

theorem runRecords_append_ok
    (step : PState → S3Record → List Call × Except String PState)
    (rs1 : List S3Record) :
    ∀ (st st1 : PState) (tr1 : List Call) (rs2 : List S3Record),
      runRecords step st rs1 = (tr1, .ok st1) →
      runRecords step st (rs1 ++ rs2) =
        (tr1 ++ (runRecords step st1 rs2).1, (runRecords step st1 rs2).2) := by
  induction rs1 with
  | nil =>
      intro st st1 tr1 rs2 h
      simp only [runRecords] at h
      injection h with h1 h2
      injection h2 with h3
      subst h3
      subst h1
      simp
  | cons r rs ih =>
      intro st st1 tr1 rs2 h
      cases hstep : step st r with
      | mk tr res =>
        cases res with
        | error e =>
            rw [runRecords_cons_error step st r rs tr e hstep] at h
            injection h with h1 h2
            exact absurd h2 (by simp)
        | ok st' =>
            rw [runRecords_cons_ok step st st' r rs tr hstep] at h
            injection h with h1 h2
            cases hrun : runRecords step st' rs with
            | mk tr2 res2 =>
                rw [hrun] at h1 h2
                simp only at h1 h2
                subst h2
                rw [List.cons_append,
                    runRecords_cons_ok step st st' r (rs ++ rs2) tr hstep,
                    ih st' st1 tr2 rs2 hrun]
                simp [h1.symm, List.append_assoc]

theorem updateFirst_length (store : List Post) (oid : String) (f : Post → Post) :
    (updateFirst store oid f).length = store.length := by
  induction store with
  | nil => rfl
  | cons p rest ih =>
      simp only [updateFirst]
      by_cases h : p.oid = oid <;> simp [h, ih]

theorem updateFirst_get? (store : List Post) (oid : String) (f : Post → Post)
    (i : Nat) :
    (updateFirst store oid f).get? i = store.get? i ∨
    ∃ p, store.get? i = some p ∧ (updateFirst store oid f).get? i = some (f p) := by
  induction store generalizing i with
  | nil => left; rfl
  | cons p rest ih =>
      by_cases h : p.oid = oid
      · have hu : updateFirst (p :: rest) oid f = f p :: rest := by
          simp only [updateFirst, if_pos h]
        rw [hu]
        cases i with
        | zero => right; exact ⟨p, rfl, rfl⟩
        | succ j => left; rfl
      · have hu : updateFirst (p :: rest) oid f = p :: updateFirst rest oid f := by
          simp only [updateFirst, if_neg h]
        rw [hu]
        cases i with
        | zero => left; rfl
        | succ j => simpa using ih j

theorem findPost_updateFirst (store : List Post) (oid : String) (f : Post → Post)
    (hf : ∀ p, (f p).oid = p.oid) :
    findPost (updateFirst store oid f) oid = (findPost store oid).map f := by
  induction store with
  | nil => rfl
  | cons p rest ih =>
      by_cases h : p.oid = oid
      · have hu : updateFirst (p :: rest) oid f = f p :: rest := by
          simp only [updateFirst, if_pos h]
        rw [hu]
        simp [findPost, List.find?, hf p, h]
      · have hu : updateFirst (p :: rest) oid f = p :: updateFirst rest oid f := by
          simp only [updateFirst, if_neg h]
        rw [hu]
        simp only [findPost, List.find?] at ih ⊢
        simp [h, ih]

theorem extractPostId_of_short (k : String) (hshort : (jsSplit '/' k).length < 3) :
    extractPostId k = none := by
  unfold extractPostId
  rw [List.get?_eq_none.mpr (by omega)]
  rfl

theorem processRecordBedrock_skip (env : Env) (st : PState) (r : S3Record)
    (k pid : String) (hdec : decodeKey r.key = some k)
    (hex : extractPostId k = some pid) (hval : isValidObjectId pid = true)
    (hfind : findPost st.store pid = none) :
    processRecordBedrock env st r = ([Call.findOne pid], .ok st) := by
  simp only [processRecordBedrock, hdec, hex, hval, hfind, if_true]

theorem processRecordOld_skip (env : Env) (st : PState) (r : S3Record)
    (k pid : String) (hdec : decodeKey r.key = some k)
    (hex : extractPostId k = some pid) (hval : isValidObjectId pid = true)
    (hfind : findPost st.store pid = none) :
    processRecordOld env st r = ([Call.findOne pid], .ok st) := by
  simp only [processRecordOld, hdec, hex, hval, hfind, if_true]

theorem processRecordBedrock_shortKey (env : Env) (st : PState) (r : S3Record)
    (k : String) (hdec : decodeKey r.key = some k)
    (hshort : (jsSplit '/' k).length < 3) :
    processRecordBedrock env st r = ([], .error segmentErrorMsg) := by
  simp only [processRecordBedrock, hdec, extractPostId_of_short k hshort]

theorem processRecordOld_shortKey (env : Env) (st : PState) (r : S3Record)
    (k : String) (hdec : decodeKey r.key = some k)
    (hshort : (jsSplit '/' k).length < 3) :
    processRecordOld env st r = ([], .error segmentErrorMsg) := by
  simp only [processRecordOld, hdec, extractPostId_of_short k hshort]

theorem processRecordBedrock_badId (env : Env) (st : PState) (r : S3Record)
    (k pid : String) (hdec : decodeKey r.key = some k)
    (hex : extractPostId k = some pid) (hval : isValidObjectId pid = false) :
    processRecordBedrock env st r = ([], .error bsonErrorMsg) := by
  simp only [processRecordBedrock, hdec, hex, hval]
  simp

theorem processRecordOld_badId (env : Env) (st : PState) (r : S3Record)
    (k pid : String) (hdec : decodeKey r.key = some k)
    (hex : extractPostId k = some pid) (hval : isValidObjectId pid = false) :
    processRecordOld env st r = ([], .error bsonErrorMsg) := by
  simp only [processRecordOld, hdec, hex, hval]
  simp

/-- Inversion of a successful bedrock loop iteration: either the post id
resolved but the post was absent (skip), or every stage succeeded and
the state gained exactly the constructed point. -/
theorem processRecordBedrock_ok_inv (env : Env) (st : PState) (r : S3Record)
    (tr : List Call) (st' : PState)
    (h : processRecordBedrock env st r = (tr, .ok st')) :
    ∃ k postId, decodeKey r.key = some k ∧ extractPostId k = some postId ∧
      isValidObjectId postId = true ∧
      ((findPost st.store postId = none ∧ st' = st ∧ tr = [Call.findOne postId]) ∨
       (∃ post img labels vec,
          findPost st.store postId = some post ∧
          env.s3Object r.bucket k = .ok img ∧
          env.detectLabels img = .ok labels ∧
          env.titanEmbed (combineText post.caption (labelDescription labels)) = .ok vec ∧
          env.mongoUpdate postId = .ok () ∧
          env.qdrantUpsert
            (mkPointBedrock st.nextId vec postId post (labelDescription labels)) = .ok () ∧
          tr = [Call.findOne postId, Call.getObject r.bucket k, Call.detectLabels img,
                Call.invokeEmbed (combineText post.caption (labelDescription labels)),
                Call.updateOne postId,
                Call.upsert "posts"
                  (mkPointBedrock st.nextId vec postId post (labelDescription labels))] ∧
          st' = { store := updateFirst st.store postId (fun p =>
                    { p with status := "processed", embeddingId := some st.nextId }),
                  points := st.points ++
                    [mkPointBedrock st.nextId vec postId post (labelDescription labels)],
                  nextId := st.nextId + 1 })) := by
  unfold processRecordBedrock at h
  repeat' split at h
  any_goals simp at h
  all_goals try (split at h <;> simp at h)
  case h_1 =>
    rename_i xk k hk xe pid hpid hval xf hfind
    exact ⟨k, pid, hk, hpid, hval, Or.inl ⟨hfind, h.2.symm, h.1.symm⟩⟩
  case h_2 =>
    rename_i xk k hk xe pid hpid hval xf post hfind xs img hs3 xl labels hlab xu u hupd
    cases u
    split at h
    · simp at h
    · rename_i xt vec hemb
      split at h
      · simp at h
      · rename_i u2 hups
        cases u2
        simp only [Prod.mk.injEq, Except.ok.injEq] at h
        exact ⟨k, pid, hk, hpid, hval, Or.inr ⟨post, img, labels, vec, hfind, hs3,
          hlab, hemb, hupd, hups, h.1.symm, h.2.symm⟩⟩

/-- Inversion of a successful old-variant loop iteration. -/
theorem processRecordOld_ok_inv (env : Env) (st : PState) (r : S3Record)
    (tr : List Call) (st' : PState)
    (h : processRecordOld env st r = (tr, .ok st')) :
    ∃ k postId, decodeKey r.key = some k ∧ extractPostId k = some postId ∧
      isValidObjectId postId = true ∧
      ((findPost st.store postId = none ∧ st' = st ∧ tr = [Call.findOne postId]) ∨
       (∃ post img raw vec,
          findPost st.store postId = some post ∧
          env.s3Object r.bucket k = .ok img ∧
          env.visionDescribe img = .ok raw ∧
          env.openaiEmbed (combineText post.caption (jsTrim raw)) = .ok vec ∧
          env.mongoUpdate postId = .ok () ∧
          env.qdrantUpsert
            (mkPointOld st.nextId vec postId post (jsTrim raw) env.now) = .ok () ∧
          tr = [Call.findOne postId, Call.getObject r.bucket k, Call.visionDescribe img,
                Call.invokeEmbed (combineText post.caption (jsTrim raw)),
                Call.updateOne postId,
                Call.upsert "posts"
                  (mkPointOld st.nextId vec postId post (jsTrim raw) env.now)] ∧
          st' = { store := updateFirst st.store postId (fun p =>
                    { p with status := "processed",
                             imageDescription := some (jsTrim raw) }),
                  points := st.points ++
                    [mkPointOld st.nextId vec postId post (jsTrim raw) env.now],
                  nextId := st.nextId + 1 })) := by
  unfold processRecordOld at h
  repeat' split at h
  any_goals simp at h
  all_goals try (split at h <;> simp at h)
  case h_1 =>
    rename_i xk k hk xe pid hpid hval xf hfind
    exact ⟨k, pid, hk, hpid, hval, Or.inl ⟨hfind, h.2.symm, h.1.symm⟩⟩
  case h_2 =>
    rename_i xk k hk xe pid hpid hval xf post hfind xs img hs3 xl raw hraw xu u hupd
    cases u
    split at h
    · simp at h
    · rename_i xt vec hemb
      split at h
      · simp at h
      · rename_i u2 hups
        cases u2
        simp only [Prod.mk.injEq, Except.ok.injEq] at h
        exact ⟨k, pid, hk, hpid, hval, Or.inr ⟨post, img, raw, vec, hfind, hs3,
          hraw, hemb, hupd, hups, h.1.symm, h.2.symm⟩⟩

/-! ### Claim theorems -/

/-- C4: the text-combining step is a deterministic pure function of
(caption, description): an empty caption yields the description alone,
a non-empty caption is joined with the description by a single space and
trimmed (in particular combining "cap" with "d" yields "cap d"), and an
absent caption yields the description alone. -/
theorem c4_combine_text_spec :
    (∀ d : String, combineText (some "") d = d) ∧
    (∀ d : String, combineText none d = d) ∧
    (∀ c d : String, c ≠ "" → combineText (some c) d = jsTrim (c ++ " " ++ d)) ∧
    combineText (some "cap") "d" = "cap d" := by
  refine ⟨fun d => rfl, fun d => rfl, fun c d hc => ?_, by decide⟩
  unfold combineText
  simp [hc]

/-- Witness for C4 at concrete inputs. -/
theorem c4_combine_text_spec_witness :
    combineText (some "") "d" = "d" ∧ combineText none "d" = "d" ∧
    combineText (some "cap") "d" = jsTrim ("cap" ++ " " ++ "d") :=
  ⟨c4_combine_text_spec.1 "d", c4_combine_text_spec.2.1 "d",
   c4_combine_text_spec.2.2.1 "cap" "d" (by decide)⟩

/-- C9: when the decoded key has fewer than three `/`-separated
segments, both variants fail the record immediately: the error is thrown
before any remote call is made for it (the trace of the record is
empty). -/
theorem c9_short_key_fails_before_calls :
    ∀ (env : Env) (st : PState) (r : S3Record) (k : String),
      decodeKey r.key = some k →
      (jsSplit '/' k).length < 3 →
      processRecordBedrock env st r = ([], .error segmentErrorMsg) ∧
      processRecordOld env st r = ([], .error segmentErrorMsg) := by
  intro env st r k hdec hshort
  exact ⟨processRecordBedrock_shortKey env st r k hdec hshort,
         processRecordOld_shortKey env st r k hdec hshort⟩

/-- Witness for C9: the key "image.jpg". -/
theorem c9_short_key_fails_before_calls_witness :
    processRecordBedrock wEnv wState wRecShort = ([], .error segmentErrorMsg) ∧
    processRecordOld wEnv wState wRecShort = ([], .error segmentErrorMsg) :=
  c9_short_key_fails_before_calls wEnv wState wRecShort "image.jpg"
    (by decide) (by decide)

/-- C3: when the resolved post id is not in the record store, both
variants make the lookup call only (no fetch, describe, embed, update or
upsert), leave the state unchanged, and the batch continues with the
remaining records. -/
theorem c3_missing_post_skips :
    ∀ (env : Env) (st : PState) (r : S3Record) (k pid : String)
      (rs : List S3Record),
      decodeKey r.key = some k → extractPostId k = some pid →
      isValidObjectId pid = true → findPost st.store pid = none →
      processRecordBedrock env st r = ([Call.findOne pid], .ok st) ∧
      processRecordOld env st r = ([Call.findOne pid], .ok st) ∧
      runRecords (processRecordBedrock env) st (r :: rs) =
        (Call.findOne pid :: (runRecords (processRecordBedrock env) st rs).1,
         (runRecords (processRecordBedrock env) st rs).2) ∧
      runRecords (processRecordOld env) st (r :: rs) =
        (Call.findOne pid :: (runRecords (processRecordOld env) st rs).1,
         (runRecords (processRecordOld env) st rs).2) := by
  intro env st r k pid rs hdec hex hval hfind
  have hb := processRecordBedrock_skip env st r k pid hdec hex hval hfind
  have ho := processRecordOld_skip env st r k pid hdec hex hval hfind
  refine ⟨hb, ho, ?_, ?_⟩
  · rw [runRecords_cons_ok (processRecordBedrock env) st st r rs [Call.findOne pid] hb]
    simp
  · rw [runRecords_cons_ok (processRecordOld env) st st r rs [Call.findOne pid] ho]
    simp

/-- Witness for C3: the post is absent from an empty record store. -/
theorem c3_missing_post_skips_witness :
    processRecordBedrock wEnv wStateEmpty wRec = ([Call.findOne wId], .ok wStateEmpty) ∧
    processRecordOld wEnv wStateEmpty wRec = ([Call.findOne wId], .ok wStateEmpty) ∧
    runRecords (processRecordBedrock wEnv) wStateEmpty (wRec :: []) =
      (Call.findOne wId :: (runRecords (processRecordBedrock wEnv) wStateEmpty []).1,
       (runRecords (processRecordBedrock wEnv) wStateEmpty []).2) ∧
    runRecords (processRecordOld wEnv) wStateEmpty (wRec :: []) =
      (Call.findOne wId :: (runRecords (processRecordOld wEnv) wStateEmpty []).1,
       (runRecords (processRecordOld wEnv) wStateEmpty []).2) :=
  c3_missing_post_skips wEnv wStateEmpty wRec wKey wId []
    (by decide) (by decide) (by decide) (by decide)

/-- C2: if a record of the batch fails, no later record is processed (the
handler trace is exactly the calls of the successful prefix plus the
failing record) and the response is 500 carrying the error message; when
every record succeeds the response is 200 with a success body. -/
theorem c2_first_failure_aborts_batch :
    ∀ (env : Env) (st st1 st' : PState) (rs1 rs2 rs : List S3Record)
      (r : S3Record) (tr1 tr trS : List Call) (e : String),
      (runRecords (processRecordBedrock env) st rs1 = (tr1, .ok st1) →
        processRecordBedrock env st1 r = (tr, .error e) →
        handlerBedrock env st (rs1 ++ r :: rs2) =
          (tr1 ++ tr, { statusCode := 500, body := .failure e })) ∧
      (runRecords (processRecordOld env) st rs1 = (tr1, .ok st1) →
        processRecordOld env st1 r = (tr, .error e) →
        handlerOld env st (rs1 ++ r :: rs2) =
          (tr1 ++ tr, { statusCode := 500, body := .failure e })) ∧
      (runRecords (processRecordBedrock env) st rs = (trS, .ok st') →
        handlerBedrock env st rs = (trS, { statusCode := 200, body := .success })) ∧
      (runRecords (processRecordOld env) st rs = (trS, .ok st') →
        handlerOld env st rs = (trS, { statusCode := 200, body := .success })) := by
  intro env st st1 st' rs1 rs2 rs r tr1 tr trS e
  refine ⟨fun h1 h2 => ?_, fun h1 h2 => ?_, fun h => ?_, fun h => ?_⟩
  · unfold handlerBedrock
    rw [runRecords_append_ok (processRecordBedrock env) rs1 st st1 tr1 (r :: rs2) h1,
        runRecords_cons_error (processRecordBedrock env) st1 r rs2 tr e h2]
    rfl
  · unfold handlerOld
    rw [runRecords_append_ok (processRecordOld env) rs1 st st1 tr1 (r :: rs2) h1,
        runRecords_cons_error (processRecordOld env) st1 r rs2 tr e h2]
    rfl
  · unfold handlerBedrock
    rw [h]
    rfl
  · unfold handlerOld
    rw [h]
    rfl

/-- Witness for C2: a batch whose only record fails (short key) gives a
500 with the error message; a batch whose only record succeeds gives a
200 success. -/
theorem c2_first_failure_aborts_batch_witness :
    handlerBedrock wEnv wState ([] ++ wRecShort :: []) =
      ([] ++ [], { statusCode := 500, body := .failure segmentErrorMsg }) ∧
    handlerOld wEnv wState ([] ++ wRecShort :: []) =
      ([] ++ [], { statusCode := 500, body := .failure segmentErrorMsg }) ∧
    handlerBedrock wEnv wState [wRec] =
      (wTraceB, { statusCode := 200, body := .success }) ∧
    handlerOld wEnv wState [wRec] =
      (wTraceO, { statusCode := 200, body := .success }) :=
  ⟨(c2_first_failure_aborts_batch wEnv wState wState wState [] [] [] wRecShort
      [] [] [] segmentErrorMsg).1 (by decide) (by decide),
   (c2_first_failure_aborts_batch wEnv wState wState wState [] [] [] wRecShort
      [] [] [] segmentErrorMsg).2.1 (by decide) (by decide),
   (c2_first_failure_aborts_batch wEnv wState wState wStateB [] [] [wRec] wRecShort
      [] [] wTraceB segmentErrorMsg).2.2.1 (by decide),
   (c2_first_failure_aborts_batch wEnv wState wState wStateO [] [] [wRec] wRecShort
      [] [] wTraceO segmentErrorMsg).2.2.2 (by decide)⟩

/-- C10: when the resolved id is not a syntactically valid ObjectId, the
lookup step itself throws before issuing any call for that record, and
the whole batch aborts with a 500 response instead of a not-found skip. -/
theorem c10_invalid_objectid_aborts :
    ∀ (env : Env) (st st1 : PState) (rs1 rs2 : List S3Record) (r : S3Record)
      (tr1 : List Call) (k pid : String),
      decodeKey r.key = some k → extractPostId k = some pid →
      isValidObjectId pid = false →
      processRecordBedrock env st1 r = ([], .error bsonErrorMsg) ∧
      processRecordOld env st1 r = ([], .error bsonErrorMsg) ∧
      (runRecords (processRecordBedrock env) st rs1 = (tr1, .ok st1) →
        handlerBedrock env st (rs1 ++ r :: rs2) =
          (tr1, { statusCode := 500, body := .failure bsonErrorMsg })) ∧
      (runRecords (processRecordOld env) st rs1 = (tr1, .ok st1) →
        handlerOld env st (rs1 ++ r :: rs2) =
          (tr1, { statusCode := 500, body := .failure bsonErrorMsg })) := by
  intro env st st1 rs1 rs2 r tr1 k pid hdec hex hval
  have hb := processRecordBedrock_badId env st1 r k pid hdec hex hval
  have ho := processRecordOld_badId env st1 r k pid hdec hex hval
  refine ⟨hb, ho, fun h1 => ?_, fun h1 => ?_⟩
  · unfold handlerBedrock
    rw [runRecords_append_ok (processRecordBedrock env) rs1 st st1 tr1 (r :: rs2) h1,
        runRecords_cons_error (processRecordBedrock env) st1 r rs2 [] bsonErrorMsg hb]
    simp [mkResponse]
  · unfold handlerOld
    rw [runRecords_append_ok (processRecordOld env) rs1 st st1 tr1 (r :: rs2) h1,
        runRecords_cons_error (processRecordOld env) st1 r rs2 [] bsonErrorMsg ho]
    simp [mkResponse]

/-- Witness for C10: the key "posts/u1/p1.jpg", whose id "p1" is not a
valid ObjectId. -/
theorem c10_invalid_objectid_aborts_witness :
    processRecordBedrock wEnv wState wRecBad = ([], .error bsonErrorMsg) ∧
    processRecordOld wEnv wState wRecBad = ([], .error bsonErrorMsg) ∧
    (runRecords (processRecordBedrock wEnv) wState [] = ([], .ok wState) →
      handlerBedrock wEnv wState ([] ++ wRecBad :: []) =
        ([], { statusCode := 500, body := .failure bsonErrorMsg })) ∧
    (runRecords (processRecordOld wEnv) wState [] = ([], .ok wState) →
      handlerOld wEnv wState ([] ++ wRecBad :: []) =
        ([], { statusCode := 500, body := .failure bsonErrorMsg })) :=
  c10_invalid_objectid_aborts wEnv wState wState [] [] wRecBad [] "posts/u1/p1.jpg"
    "p1" (by decide) (by decide) (by decide)

/-- C1: when the resolved post id exists in the record store, a
successful run of either variant sets that post's status to "processed"
and appends exactly one new vector-index point whose payload postId is
the resolved id. -/
theorem c1_processed_and_one_point :
    ∀ (env : Env) (st st' : PState) (r : S3Record) (tr : List Call)
      (pid : String) (post : Post),
      resolvedPostId r.key = some pid →
      findPost st.store pid = some post →
      (processRecordBedrock env st r = (tr, .ok st') →
        (∃ post', findPost st'.store pid = some post' ∧ post'.status = "processed") ∧
        (∃ pt, st'.points = st.points ++ [pt] ∧ pt.payload.postId = pid)) ∧
      (processRecordOld env st r = (tr, .ok st') →
        (∃ post', findPost st'.store pid = some post' ∧ post'.status = "processed") ∧
        (∃ pt, st'.points = st.points ++ [pt] ∧ pt.payload.postId = pid)) := by
  intro env st st' r tr pid post hres hfind
  unfold resolvedPostId at hres
  constructor
  · intro h
    obtain ⟨k, pid', hk, hex, hval, hcase⟩ :=
      processRecordBedrock_ok_inv env st r tr st' h
    rw [hk, Option.some_bind, hex] at hres
    injection hres with hpid
    subst hpid
    rcases hcase with ⟨hnone, _, _⟩ | ⟨post2, img, labels, vec, hfind2, hs3, hlab,
      hemb, hupd, hups, htr, hst'⟩
    · rw [hnone] at hfind
      exact absurd hfind (by simp)
    · subst hst'
      constructor
      · refine ⟨{ post2 with status := "processed", embeddingId := some st.nextId },
          ?_, rfl⟩
        rw [findPost_updateFirst st.store pid'
          (fun p => { p with status := "processed", embeddingId := some st.nextId })
          (fun p => rfl), hfind2]
        rfl
      · exact ⟨mkPointBedrock st.nextId vec pid' post2 (labelDescription labels),
          rfl, rfl⟩
  · intro h
    obtain ⟨k, pid', hk, hex, hval, hcase⟩ :=
      processRecordOld_ok_inv env st r tr st' h
    rw [hk, Option.some_bind, hex] at hres
    injection hres with hpid
    subst hpid
    rcases hcase with ⟨hnone, _, _⟩ | ⟨post2, img, raw, vec, hfind2, hs3, hraw,
      hemb, hupd, hups, htr, hst'⟩
    · rw [hnone] at hfind
      exact absurd hfind (by simp)
    · subst hst'
      constructor
      · refine ⟨{ post2 with status := "processed", imageDescription := some (jsTrim raw) },
          ?_, rfl⟩
        rw [findPost_updateFirst st.store pid'
          (fun p => { p with status := "processed", imageDescription := some (jsTrim raw) })
          (fun p => rfl), hfind2]
        rfl
      · exact ⟨mkPointOld st.nextId vec pid' post2 (jsTrim raw) env.now, rfl, rfl⟩

/-- Witness for C1 on the concrete scenario. -/
theorem c1_processed_and_one_point_witness :
    ((∃ post', findPost wStateB.store wId = some post' ∧ post'.status = "processed") ∧
     (∃ pt, wStateB.points = wState.points ++ [pt] ∧ pt.payload.postId = wId)) ∧
    ((∃ post', findPost wStateO.store wId = some post' ∧ post'.status = "processed") ∧
     (∃ pt, wStateO.points = wState.points ++ [pt] ∧ pt.payload.postId = wId)) :=
  ⟨(c1_processed_and_one_point wEnv wState wStateB wRec wTraceB wId wPost
      (by decide) (by decide)).1 (by decide),
   (c1_processed_and_one_point wEnv wState wStateO wRec wTraceO wId wPost
      (by decide) (by decide)).2 (by decide)⟩

/-- C5 counterexample: the bedrock describer builds the description with
the Portuguese literal `"A imagem contém: "`, not `"Image contains: "`;
for labels ["Sky","Cloud"] the pipeline's upserted description is
"A imagem contém: sky, cloud.", which differs from the claimed
"Image contains: sky, cloud.". -/
theorem c5_counterexample :
    labelDescription ["Sky", "Cloud"] ≠ "Image contains: sky, cloud." ∧
    upsertedPayloads (processRecordBedrock wEnv wState wRec).1 = [wPtB.payload] ∧
    wPtB.payload.imageDescription = "A imagem contém: sky, cloud." := by
  decide

/-- C5 amended: for every successful bedrock run that upserts a point,
the point's description is `"A imagem contém: "` followed by the
lowercased, comma-joined label names, followed by `"."` — a
deterministic function of the detector output. -/
theorem c5_label_description_shape :
    ∀ (env : Env) (st st' : PState) (r : S3Record) (tr : List Call) (pt : QPoint),
      processRecordBedrock env st r = (tr, .ok st') →
      st'.points = st.points ++ [pt] →
      ∃ img labels, env.detectLabels img = .ok labels ∧
        pt.payload.imageDescription =
          "A imagem contém: " ++ jsToLower (joinCommaSpace labels) ++ "." := by
  intro env st st' r tr pt h hpt
  obtain ⟨k, pid, hk, hex, hval, hcase⟩ :=
    processRecordBedrock_ok_inv env st r tr st' h
  rcases hcase with ⟨hnone, hst, htr⟩ | ⟨post, img, labels, vec, hfind, hs3, hlab,
    hemb, hupd, hups, htr, hst'⟩
  · subst hst
    have := congrArg List.length hpt
    simp at this
  · subst hst'
    have hpt' : st.points ++ [mkPointBedrock st.nextId vec pid post
        (labelDescription labels)] = st.points ++ [pt] := hpt
    have e1 : pt = mkPointBedrock st.nextId vec pid post (labelDescription labels) :=
      by simpa using (List.append_cancel_left hpt').symm
    exact ⟨img, labels, hlab, by rw [e1]; rfl⟩

/-- Witness for the amended C5 on the concrete scenario. -/
theorem c5_label_description_shape_witness :
    ∃ img labels, wEnv.detectLabels img = .ok labels ∧
      wPtB.payload.imageDescription =
        "A imagem contém: " ++ jsToLower (joinCommaSpace labels) ++ "." :=
  c5_label_description_shape wEnv wState wStateB wRec wTraceB wPtB
    (by decide) (by decide)

/-- C6 counterexample: the old variant's upsert payload carries a fifth
field `createdAt` (`new Date()`), so the payload does not consist only
of postId, userId, caption and description. -/
theorem c6_counterexample :
    ¬ ∀ pl ∈ upsertedPayloads (processRecordOld wEnv wState wRec).1,
        pl.createdAt = none := by
  decide

/-- C6 amended: each successful run performs exactly one upsert, into
collection "posts", of one point whose id is the freshly generated
identity, whose vector is the embedding of the combined text, and whose
payload is {postId, userId, caption, description} — with no `createdAt`
in the bedrock variant, and additionally `createdAt` (the current time)
in the old variant. -/
theorem c6_upsert_point_shape :
    ∀ (env : Env) (st st' : PState) (r : S3Record) (tr : List Call) (pt : QPoint),
      (processRecordBedrock env st r = (tr, .ok st') →
        st'.points = st.points ++ [pt] →
        tr.filterMap upsertCallArgs = [("posts", pt)] ∧
        pt.pid = st.nextId ∧ st'.nextId = st.nextId + 1 ∧
        pt.payload.createdAt = none ∧
        (∃ post, findPost st.store pt.payload.postId = some post ∧
          pt.payload.userId = post.userId ∧
          pt.payload.caption = post.caption.getD "" ∧
          env.titanEmbed (combineText post.caption pt.payload.imageDescription) =
            .ok pt.vector)) ∧
      (processRecordOld env st r = (tr, .ok st') →
        st'.points = st.points ++ [pt] →
        tr.filterMap upsertCallArgs = [("posts", pt)] ∧
        pt.pid = st.nextId ∧ st'.nextId = st.nextId + 1 ∧
        pt.payload.createdAt = some env.now ∧
        (∃ post, findPost st.store pt.payload.postId = some post ∧
          pt.payload.userId = post.userId ∧
          pt.payload.caption = post.caption.getD "" ∧
          env.openaiEmbed (combineText post.caption pt.payload.imageDescription) =
            .ok pt.vector)) := by
  intro env st st' r tr pt
  constructor
  · intro h hpt
    obtain ⟨k, pid, hk, hex, hval, hcase⟩ :=
      processRecordBedrock_ok_inv env st r tr st' h
    rcases hcase with ⟨hnone, hst, htr⟩ | ⟨post, img, labels, vec, hfind, hs3, hlab,
      hemb, hupd, hups, htr, hst'⟩
    · subst hst
      have := congrArg List.length hpt
      simp at this
    · subst hst'
      subst htr
      have hpt' : st.points ++ [mkPointBedrock st.nextId vec pid post
          (labelDescription labels)] = st.points ++ [pt] := hpt
      have e1 : pt = mkPointBedrock st.nextId vec pid post (labelDescription labels) :=
        by simpa using (List.append_cancel_left hpt').symm
      subst e1
      exact ⟨rfl, rfl, rfl, rfl, ⟨post, hfind, rfl, rfl, hemb⟩⟩
  · intro h hpt
    obtain ⟨k, pid, hk, hex, hval, hcase⟩ :=
      processRecordOld_ok_inv env st r tr st' h
    rcases hcase with ⟨hnone, hst, htr⟩ | ⟨post, img, raw, vec, hfind, hs3, hraw,
      hemb, hupd, hups, htr, hst'⟩
    · subst hst
      have := congrArg List.length hpt
      simp at this
    · subst hst'
      subst htr
      have hpt' : st.points ++ [mkPointOld st.nextId vec pid post (jsTrim raw)
          env.now] = st.points ++ [pt] := hpt
      have e1 : pt = mkPointOld st.nextId vec pid post (jsTrim raw) env.now :=
        by simpa using (List.append_cancel_left hpt').symm
      subst e1
      exact ⟨rfl, rfl, rfl, rfl, ⟨post, hfind, rfl, rfl, hemb⟩⟩

/-- Witness for the amended C6 on the concrete scenario. -/
theorem c6_upsert_point_shape_witness :
    (wTraceB.filterMap upsertCallArgs = [("posts", wPtB)] ∧
     wPtB.pid = wState.nextId ∧ wStateB.nextId = wState.nextId + 1 ∧
     wPtB.payload.createdAt = none ∧
     (∃ post, findPost wState.store wPtB.payload.postId = some post ∧
       wPtB.payload.userId = post.userId ∧
       wPtB.payload.caption = post.caption.getD "" ∧
       wEnv.titanEmbed (combineText post.caption wPtB.payload.imageDescription) =
         .ok wPtB.vector)) ∧
    (wTraceO.filterMap upsertCallArgs = [("posts", wPtO)] ∧
     wPtO.pid = wState.nextId ∧ wStateO.nextId = wState.nextId + 1 ∧
     wPtO.payload.createdAt = some wEnv.now ∧
     (∃ post, findPost wState.store wPtO.payload.postId = some post ∧
       wPtO.payload.userId = post.userId ∧
       wPtO.payload.caption = post.caption.getD "" ∧
       wEnv.openaiEmbed (combineText post.caption wPtO.payload.imageDescription) =
         .ok wPtO.vector)) :=
  ⟨(c6_upsert_point_shape wEnv wState wStateB wRec wTraceB wPtB).1
      (by decide) (by decide),
   (c6_upsert_point_shape wEnv wState wStateO wRec wTraceO wPtO).2
      (by decide) (by decide)⟩

/-- C7: the persist step only updates the enrichment fields: after any successful run,
each record-store document is either untouched or equal to the original
with only the enrichment fields changed (status set to "processed" plus
the embedding identity in the bedrock variant, the description in the
old variant); no document is replaced wholesale and the store keeps its
length. -/
theorem c7_persist_frame :
    ∀ (env : Env) (st st' : PState) (r : S3Record) (tr : List Call),
      (processRecordBedrock env st r = (tr, .ok st') →
        st'.store.length = st.store.length ∧
        ∀ i : Nat, st'.store.get? i = st.store.get? i ∨
          ∃ p, st.store.get? i = some p ∧
            st'.store.get? i =
              some { p with status := "processed", embeddingId := some st.nextId }) ∧
      (processRecordOld env st r = (tr, .ok st') →
        st'.store.length = st.store.length ∧
        ∃ desc, ∀ i : Nat, st'.store.get? i = st.store.get? i ∨
          ∃ p, st.store.get? i = some p ∧
            st'.store.get? i =
              some { p with status := "processed", imageDescription := some desc }) := by
  intro env st st' r tr
  constructor
  · intro h
    obtain ⟨k, pid, hk, hex, hval, hcase⟩ :=
      processRecordBedrock_ok_inv env st r tr st' h
    rcases hcase with ⟨hnone, hst, htr⟩ | ⟨post, img, labels, vec, hfind, hs3, hlab,
      hemb, hupd, hups, htr, hst'⟩
    · subst hst
      exact ⟨rfl, fun i => Or.inl rfl⟩
    · subst hst'
      exact ⟨updateFirst_length st.store pid _,
        fun i => updateFirst_get? st.store pid
          (fun p => { p with status := "processed", embeddingId := some st.nextId }) i⟩
  · intro h
    obtain ⟨k, pid, hk, hex, hval, hcase⟩ :=
      processRecordOld_ok_inv env st r tr st' h
    rcases hcase with ⟨hnone, hst, htr⟩ | ⟨post, img, raw, vec, hfind, hs3, hraw,
      hemb, hupd, hups, htr, hst'⟩
    · subst hst
      exact ⟨rfl, "", fun i => Or.inl rfl⟩
    · subst hst'
      exact ⟨updateFirst_length st.store pid _, jsTrim raw,
        fun i => updateFirst_get? st.store pid
          (fun p => { p with status := "processed", imageDescription := some (jsTrim raw) }) i⟩

/-- Witness for C7 on the concrete scenario (index 0 of the store). -/
theorem c7_persist_frame_witness :
    (wStateB.store.length = wState.store.length ∧
     (wStateB.store.get? 0 = wState.store.get? 0 ∨
      ∃ p, wState.store.get? 0 = some p ∧
        wStateB.store.get? 0 =
          some { p with status := "processed", embeddingId := some wState.nextId })) ∧
    (wStateO.store.length = wState.store.length ∧
     ∃ desc, ∀ i : Nat, wStateO.store.get? i = wState.store.get? i ∨
       ∃ p, wState.store.get? i = some p ∧
         wStateO.store.get? i =
           some { p with status := "processed", imageDescription := some desc }) :=
  ⟨⟨((c7_persist_frame wEnv wState wStateB wRec wTraceB).1 (by decide)).1,
    ((c7_persist_frame wEnv wState wStateB wRec wTraceB).1 (by decide)).2 0⟩,
   (c7_persist_frame wEnv wState wStateO wRec wTraceO).2 (by decide)⟩

/-- C8: processing the same event twice (the second run starting from
the state the first one produced) appends two vector-index points with
distinct identities, because a fresh identity is generated on each run;
repeated runs are not idempotent with respect to the vector index. -/
theorem c8_repeat_runs_distinct_points :
    ∀ (env : Env) (st st1 st2 : PState) (r : S3Record) (tr1 tr2 : List Call)
      (pt1 pt2 : QPoint),
      (processRecordBedrock env st r = (tr1, .ok st1) →
        st1.points = st.points ++ [pt1] →
        processRecordBedrock env st1 r = (tr2, .ok st2) →
        st2.points = st1.points ++ [pt2] →
        pt1.pid ≠ pt2.pid ∧ st2.points = st.points ++ [pt1] ++ [pt2]) ∧
      (processRecordOld env st r = (tr1, .ok st1) →
        st1.points = st.points ++ [pt1] →
        processRecordOld env st1 r = (tr2, .ok st2) →
        st2.points = st1.points ++ [pt2] →
        pt1.pid ≠ pt2.pid ∧ st2.points = st.points ++ [pt1] ++ [pt2]) := by
  intro env st st1 st2 r tr1 tr2 pt1 pt2
  constructor
  · intro h1 hp1 h2 hp2
    obtain ⟨k, pid, hk, hex, hval, hcase⟩ :=
      processRecordBedrock_ok_inv env st r tr1 st1 h1
    rcases hcase with ⟨hnone, hst, htr⟩ | ⟨post, img, labels, vec, hfind, hs3, hlab,
      hemb, hupd, hups, htr, hst1⟩
    · subst hst
      have := congrArg List.length hp1
      simp at this
    · have hq1 : st.points ++ [mkPointBedrock st.nextId vec pid post
          (labelDescription labels)] = st.points ++ [pt1] := by
        rw [hst1] at hp1
        exact hp1
      have e1 : pt1 = mkPointBedrock st.nextId vec pid post (labelDescription labels) :=
        by simpa using (List.append_cancel_left hq1).symm
      obtain ⟨k2, pid2, hk2, hex2, hval2, hcase2⟩ :=
        processRecordBedrock_ok_inv env st1 r tr2 st2 h2
      rcases hcase2 with ⟨hnone2, hst2, htr2⟩ | ⟨post2, img2, labels2, vec2, hfind2,
        hs32, hlab2, hemb2, hupd2, hups2, htr2, hst2⟩
      · rw [hst2] at hp2
        have := congrArg List.length hp2
        simp at this
      · have hn1 : st1.nextId = st.nextId + 1 := by rw [hst1]
        have hq2 : st1.points ++ [mkPointBedrock st1.nextId vec2 pid2 post2
            (labelDescription labels2)] = st1.points ++ [pt2] := by
          rw [hst2] at hp2
          exact hp2
        have e2 : pt2 = mkPointBedrock st1.nextId vec2 pid2 post2
            (labelDescription labels2) :=
          by simpa using (List.append_cancel_left hq2).symm
        constructor
        · rw [e1, e2, hn1]
          show st.nextId ≠ st.nextId + 1
          omega
        · rw [hp2, hp1]
  · intro h1 hp1 h2 hp2
    obtain ⟨k, pid, hk, hex, hval, hcase⟩ :=
      processRecordOld_ok_inv env st r tr1 st1 h1
    rcases hcase with ⟨hnone, hst, htr⟩ | ⟨post, img, raw, vec, hfind, hs3, hraw,
      hemb, hupd, hups, htr, hst1⟩
    · subst hst
      have := congrArg List.length hp1
      simp at this
    · have hq1 : st.points ++ [mkPointOld st.nextId vec pid post (jsTrim raw)
          env.now] = st.points ++ [pt1] := by
        rw [hst1] at hp1
        exact hp1
      have e1 : pt1 = mkPointOld st.nextId vec pid post (jsTrim raw) env.now :=
        by simpa using (List.append_cancel_left hq1).symm
      obtain ⟨k2, pid2, hk2, hex2, hval2, hcase2⟩ :=
        processRecordOld_ok_inv env st1 r tr2 st2 h2
      rcases hcase2 with ⟨hnone2, hst2, htr2⟩ | ⟨post2, img2, raw2, vec2, hfind2,
        hs32, hraw2, hemb2, hupd2, hups2, htr2, hst2⟩
      · rw [hst2] at hp2
        have := congrArg List.length hp2
        simp at this
      · have hn1 : st1.nextId = st.nextId + 1 := by rw [hst1]
        have hq2 : st1.points ++ [mkPointOld st1.nextId vec2 pid2 post2
            (jsTrim raw2) env.now] = st1.points ++ [pt2] := by
          rw [hst2] at hp2
          exact hp2
        have e2 : pt2 = mkPointOld st1.nextId vec2 pid2 post2 (jsTrim raw2)
            env.now :=
          by simpa using (List.append_cancel_left hq2).symm
        constructor
        · rw [e1, e2, hn1]
          show st.nextId ≠ st.nextId + 1
          omega
        · rw [hp2, hp1]

/-- Witness for C8: two consecutive runs on the concrete scenario
produce points with ids 0 and 1. -/
theorem c8_repeat_runs_distinct_points_witness :
    (wPtB.pid ≠ wPtB2.pid ∧ wStateB2.points = wState.points ++ [wPtB] ++ [wPtB2]) ∧
    (wPtO.pid ≠ wPtO2.pid ∧ wStateO2.points = wState.points ++ [wPtO] ++ [wPtO2]) :=
  ⟨(c8_repeat_runs_distinct_points wEnv wState wStateB wStateB2 wRec wTraceB
      wTraceB2 wPtB wPtB2).1 (by decide) (by decide) (by decide) (by decide),
   (c8_repeat_runs_distinct_points wEnv wState wStateO wStateO2 wRec wTraceO
      wTraceO2 wPtO wPtO2).2 (by decide) (by decide) (by decide) (by decide)⟩

end Spotter
